import Mathlib

/-!
Verification of the outback-timelapse streaming server (`server.js`).

The development shallowly embeds the stateful core of the server:
the session registry and socket handlers, the timelapse job gate with
its staleness cache, the encoder restart supervisor, the fluent-ffmpeg
command construction, and the HLS manifest URL rewriter.  JavaScript
strings are modelled as `List Char`, byte buffers as `List Nat`, the
`Map` objects as association lists with `Map.set`/`Map.get`/`Map.delete`
semantics, and file-modification times as natural numbers.
-/

/-- JavaScript strings are modelled as lists of characters. -/
abbrev Str := List Char

/-- Byte buffers (Node `Buffer`) are modelled as lists of naturals. -/
abbrev Bytes := List Nat

/-- Embedding of `getStreamKey` (server.js lines 80-82):
the template literal interpolation produces `userId` ++ "_" ++ `challengeNum`. -/
def getStreamKey (userId challengeNum : Str) : Str :=
  userId ++ '_' :: challengeNum

/-- Lookup in an association list, modelling `Map.get` / `Map.has`. -/
def lookupA {α : Type} : List (Str × α) → Str → Option α
  | [], _ => none
  | (k, v) :: m, key => if k = key then some v else lookupA m key

/-- Insert-or-replace in an association list, modelling `Map.set`. -/
def setA {α : Type} : List (Str × α) → Str → α → List (Str × α)
  | [], key, v => [(key, v)]
  | (k, w) :: m, key, v => if k = key then (key, v) :: m else (k, w) :: setA m key v

/-- Removal from an association list, modelling `Map.delete`. -/
def deleteA {α : Type} : List (Str × α) → Str → List (Str × α)
  | [], _ => []
  | (k, w) :: m, key => if k = key then m else (k, w) :: deleteA m key

/-- Removal of a key from a key set, modelling `Map.delete` on a map whose
values are irrelevant to the model. -/
def removeK : List Str → Str → List Str
  | [], _ => []
  | k :: m, key => if k = key then m else k :: removeK m key

/-- One record of the `activeStreams` map (server.js lines 184-191).
The `writeStream` object is always stored with the record, so the
truthiness test `streamInfo.writeStream` is modelled by `hasWriteStream`. -/
structure StreamInfo where
  socketId : Nat
  userId : Str
  challengeNum : Str
  startTime : Nat
  hasWriteStream : Bool
deriving DecidableEq

/-- The mutable server state relevant to the socket handlers:
`activeStreams` and `ffmpegProcesses` (server.js lines 75-76, with the
process map reduced to its key set, which is all the handlers consult),
plus the per-session `input.webm` contents on disk. -/
structure SrvState where
  activeStreams : List (Str × StreamInfo)
  ffmpegProcs : List Str
  files : List (Str × Bytes)
deriving DecidableEq

/-- Messages the socket handlers emit back to the client. -/
inductive Emit where
  | streamReady (key : Str)
  | streamStopped
deriving DecidableEq

/-- Embedding of the `start-stream` handler (server.js lines 167-263):
creates the recording directory, opens `fs.createWriteStream(inputFile)`
(which truncates the file to empty), stores the session record, and
replies `stream-ready`.  The encoder spawn that the handler schedules
after the warm-up delay is supervised separately (see `supStep`). -/
def startStream (u c : Str) (sockId now : Nat) (s : SrvState) : SrvState × List Emit :=
  ({ s with
      activeStreams := setA s.activeStreams (getStreamKey u c)
        ⟨sockId, u, c, now, true⟩,
      files := setA s.files (getStreamKey u c) [] },
   [Emit.streamReady (getStreamKey u c)])

/-- Appending bytes to a session's container file, modelling
`writeStream.write(buffer)` on the file created at session start. -/
def appendFile (files : List (Str × Bytes)) (key : Str) (b : Bytes) : List (Str × Bytes) :=
  setA files key (((lookupA files key).getD []) ++ b)

/-- Embedding of the `stream-chunk` handler (server.js lines 265-274).
The handler receives `chunk` as base64 text and writes
`Buffer.from(chunk, 'base64')`; the model takes the decoded byte list
`buffer` as the message payload.  When no session record exists the
handler does nothing and emits nothing. -/
def streamChunk (u c : Str) (buffer : Bytes) (s : SrvState) : SrvState × List Emit :=
  match lookupA s.activeStreams (getStreamKey u c) with
  | some info =>
      if info.hasWriteStream
      then ({ s with files := appendFile s.files (getStreamKey u c) buffer }, [])
      else (s, [])
  | none => (s, [])

/-- Embedding of the `stop-stream` handler (server.js lines 276-295):
ends the write stream when a session exists (a flush that changes no
already-written byte, hence no effect on the modelled file contents),
kills and removes the encoder process entry when present, deletes the
registry record, and unconditionally emits `stream-stopped`. -/
def stopStream (u c : Str) (s : SrvState) : SrvState × List Emit :=
  let s1 := if (getStreamKey u c) ∈ s.ffmpegProcs
    then { s with ffmpegProcs := removeK s.ffmpegProcs (getStreamKey u c) }
    else s
  ({ s1 with activeStreams := deleteA s1.activeStreams (getStreamKey u c) },
   [Emit.streamStopped])

/-- Delivery of a sequence of `stream-chunk` messages for one session. -/
def deliverChunks (u c : Str) (cs : List Bytes) (s : SrvState) : SrvState :=
  cs.foldl (fun st b => (streamChunk u c b st).1) s

/-- Filesystem and job state consulted by the timelapse gate for one
session key: existence and mtime of `input.webm` and `timelapse.m3u8`,
and membership of the key in `timelapseProcesses`. -/
structure TLState where
  inputExists : Bool
  inputMtime : Nat
  tlExists : Bool
  tlMtime : Nat
  running : Bool
deriving DecidableEq

/-- Immediate outcome of a `generateTimelapse` call. -/
inductive GenResult where
  | genOk
  | genErr (msg : String)
  | spawned
deriving DecidableEq

/-- Error message used by `generateTimelapse` (server.js line 99). -/
def inputNotFoundMsg : String := "Input file not found"

/-- Error message used by `generateTimelapse` (server.js line 114). -/
def inProgressMsg : String := "Timelapse generation already in progress"

/-- Embedding of `generateTimelapse` (server.js lines 91-161): missing
input is an error; a cached playlist with mtime at least the input's
mtime is returned as-is; a key already in `timelapseProcesses` yields
the in-progress error; otherwise the job is recorded as running and the
transcode is spawned (its completion callbacks are `tlOnEnd` /
`tlOnError`). -/
def generateTimelapse (s : TLState) : GenResult × TLState :=
  if !s.inputExists then (GenResult.genErr inputNotFoundMsg, s)
  else if s.tlExists && decide (s.inputMtime ≤ s.tlMtime) then (GenResult.genOk, s)
  else if s.running then (GenResult.genErr inProgressMsg, s)
  else (GenResult.spawned, { s with running := true })

/-- Disposition of a `GET /timelapse/:userId/:challengeNum` request. -/
inductive TLDisposition where
  | notFound
  | servedCached
  | servedGenerated
  | inProgress
  | failed
  | started
deriving DecidableEq

/-- Embedding of the `/timelapse` route (server.js lines 592-667):
404 when `input.webm` is missing; an existing `timelapse.m3u8` is read,
rewritten and served with no further check; otherwise the request goes
through `generateTimelapse`, whose in-progress error is mapped to 202,
other errors to 500, and a spawned job defers the response to the
completion callback. -/
def routeTimelapse (s : TLState) : TLDisposition × TLState :=
  if !s.inputExists then (TLDisposition.notFound, s)
  else if s.tlExists then (TLDisposition.servedCached, s)
  else
    match generateTimelapse s with
    | (GenResult.genOk, s1) => (TLDisposition.servedGenerated, s1)
    | (GenResult.genErr m, s1) =>
        if m = inProgressMsg then (TLDisposition.inProgress, s1)
        else (TLDisposition.failed, s1)
    | (GenResult.spawned, s1) => (TLDisposition.started, s1)

/-- HTTP status code carried by each disposition; a `started` job has no
immediate response (it is answered by the completion callback). -/
def httpStatus : TLDisposition → Option Nat
  | TLDisposition.notFound => some 404
  | TLDisposition.servedCached => some 200
  | TLDisposition.servedGenerated => some 200
  | TLDisposition.inProgress => some 202
  | TLDisposition.failed => some 500
  | TLDisposition.started => none

/-- Completion callback of the timelapse job (server.js lines 148-152):
the key is deleted from `timelapseProcesses` and the fresh playlist now
exists on disk with the current mtime. -/
def tlOnEnd (now : Nat) (s : TLState) : TLState :=
  { s with running := false, tlExists := true, tlMtime := now }

/-- Failure callback of the timelapse job (server.js lines 153-157):
the key is deleted from `timelapseProcesses`. -/
def tlOnError (s : TLState) : TLState :=
  { s with running := false }

/-- States of the live-path encoder supervisor for one session
(server.js lines 195-259): the spawned encoder is running; after an
error with the session still registered a 2000 ms backoff timer is
pending; after the timer fires with the session still registered the
single retry process is running; otherwise the encoder is dead for this
session. -/
inductive SupState where
  | running
  | waitingBackoff
  | runningRetry
  | dead
deriving DecidableEq

/-- Supervisor events: the first process errors (with the registry
membership of the key at that instant), the backoff timer fires (with
the membership at that instant), or the retry process errors. -/
inductive SupEvent where
  | errEvt (registered : Bool)
  | elapseEvt (registered : Bool)
  | retryErrEvt
deriving DecidableEq

/-- Warm-up delay before the first encoder spawn (server.js line 259). -/
def warmupDelayMs : Nat := 2000

/-- Backoff delay before the single encoder restart (server.js line 250). -/
def retryBackoffMs : Nat := 2000

/-- Transition function of the supervisor, read off the nested callbacks
in server.js lines 221-252: the error handler schedules the backoff only
if `activeStreams.has(streamKey)`; the timer body re-checks membership
before spawning the retry; the retry process has no error handler of its
own, so its failure is terminal. -/
def supStep : SupState → SupEvent → SupState
  | SupState.running, SupEvent.errEvt r => if r then SupState.waitingBackoff else SupState.dead
  | SupState.waitingBackoff, SupEvent.elapseEvt r => if r then SupState.runningRetry else SupState.dead
  | SupState.runningRetry, SupEvent.retryErrEvt => SupState.dead
  | s, _ => s

/-- An event is a restart when it moves the supervisor into the retry
process from elsewhere. -/
def isRestart (s : SupState) (e : SupEvent) : Bool :=
  decide (supStep s e = SupState.runningRetry) && decide (s ≠ SupState.runningRetry)

/-- Number of restarts performed along a trace of supervisor events. -/
def countRestarts : SupState → List SupEvent → Nat
  | _, [] => 0
  | s, e :: es => (if isRestart s e then 1 else 0) + countRestarts (supStep s e) es

/-- The video filter string of the timelapse job (server.js line 125). -/
def setptsFilter : String := "setpts=0.01667*PTS"

/-- The audio filter string of the timelapse job (server.js line 128). -/
def atempoFilter : String := "atempo=2.0,atempo=2.0,atempo=2.0,atempo=2.0,atempo=1.875"

/-- A constructed fluent-ffmpeg command: the options fed to the builder
and which completion callbacks were attached before `run()`. -/
structure FfCommand where
  input : String
  inputOpts : List String
  videoFilters : List String
  audioFilters : List String
  outputOpts : List String
  outPath : String
  hasOnStart : Bool
  hasOnProgress : Bool
  hasOnEnd : Bool
  hasOnError : Bool
deriving DecidableEq

/-- The first live-path encoder command (server.js lines 196-258). -/
def liveCommand (inputFile outputPlaylist segFile : String) : FfCommand where
  input := inputFile
  inputOpts := ["-fflags", "+genpts+discardcorrupt", "-flags", "low_delay",
    "-strict", "experimental", "-analyzeduration", "1000000", "-probesize", "1000000"]
  videoFilters := []
  audioFilters := []
  outputOpts := ["-c:v", "libx264", "-preset", "ultrafast", "-tune", "zerolatency",
    "-c:a", "aac", "-f", "hls", "-hls_time", "2", "-hls_list_size", "5",
    "-hls_flags", "delete_segments+append_list", "-hls_segment_filename", segFile,
    "-hls_playlist_type", "event", "-start_number", "0"]
  outPath := outputPlaylist
  hasOnStart := true
  hasOnProgress := false
  hasOnEnd := true
  hasOnError := true

/-- The retried live-path encoder command (server.js lines 228-247): the
builder chain attaches input options, output options and the output path
and calls `run()` directly, with no `on` handler of any kind. -/
def retryCommand (inputFile outputPlaylist segFile : String) : FfCommand where
  input := inputFile
  inputOpts := ["-fflags", "+genpts+discardcorrupt", "-flags", "low_delay",
    "-strict", "experimental"]
  videoFilters := []
  audioFilters := []
  outputOpts := ["-c:v", "libx264", "-preset", "ultrafast", "-tune", "zerolatency",
    "-c:a", "aac", "-f", "hls", "-hls_time", "2", "-hls_list_size", "5",
    "-hls_flags", "delete_segments+append_list", "-hls_segment_filename", segFile,
    "-hls_playlist_type", "event"]
  outPath := outputPlaylist
  hasOnStart := false
  hasOnProgress := false
  hasOnEnd := false
  hasOnError := false

/-- The on-demand timelapse encoder command (server.js lines 120-157). -/
def timelapseCommand (inputFile timelapsePlaylist segFile : String) : FfCommand where
  input := inputFile
  inputOpts := ["-fflags", "+genpts"]
  videoFilters := [setptsFilter]
  audioFilters := [atempoFilter]
  outputOpts := ["-c:v", "libx264", "-preset", "ultrafast", "-c:a", "aac",
    "-f", "hls", "-hls_time", "2", "-hls_list_size", "0",
    "-hls_flags", "delete_segments", "-hls_segment_filename", segFile,
    "-hls_playlist_type", "vod"]
  outPath := timelapsePlaylist
  hasOnStart := true
  hasOnProgress := true
  hasOnEnd := true
  hasOnError := true

/-- Splitting a character list at a separator, modelling `String.split`. -/
def splitOnChar (sep : Char) (l : Str) : List Str :=
  l.foldr (fun ch acc =>
    match acc with
    | [] => [[ch]]
    | cur :: rest => if ch = sep then [] :: cur :: rest else (ch :: cur) :: rest) [[]]

/-- Removal of an expected literal from the front of a character list. -/
def stripPre : Str → Str → Option Str
  | [], l => some l
  | _ :: _, [] => none
  | p :: ps, ch :: cs => if ch = p then stripPre ps cs else none

/-- Value of a digit string. -/
def natOfDigits (l : Str) : Nat :=
  l.foldl (fun n ch => 10 * n + (ch.toNat - 48)) 0

/-- Whether every character is a decimal digit. -/
def allDigits (l : Str) : Bool := l.all Char.isDigit

/-- Exact value of a non-negative decimal literal such as the `2.0`,
`1.875` and `0.01667` appearing in the ffmpeg filter strings, returned
as a numerator together with its power-of-ten denominator. -/
def parseDecimal (l : Str) : Option (Nat × Nat) :=
  match splitOnChar '.' l with
  | [i] => if !i.isEmpty && allDigits i then some (natOfDigits i, 1) else none
  | [i, f] =>
      if (!i.isEmpty && allDigits i) && (!f.isEmpty && allDigits f)
      then some (natOfDigits i * 10 ^ f.length + natOfDigits f, 10 ^ f.length)
      else none
  | _ => none

/-- Rational value of a parsed decimal literal. -/
def ratOfPair (p : Nat × Nat) : ℚ := (p.1 : ℚ) / (p.2 : ℚ)

/-- Tempo factor of a single `atempo=<decimal>` stage. -/
def parseAtempoOne (l : Str) : Option (Nat × Nat) :=
  match stripPre ("atempo=").toList l with
  | some r => parseDecimal r
  | none => none

/-- Tempo factors of a comma-separated chain of `atempo=` stages. -/
def parseAtempoChain (l : Str) : Option (List (Nat × Nat)) :=
  (splitOnChar ',' l).foldr (fun p acc =>
    match parseAtempoOne p, acc with
    | some q, some qs => some (q :: qs)
    | _, _ => none) (some [])

/-- Presentation-timestamp factor of a `setpts=<decimal>*PTS` filter. -/
def parseSetptsFactor (l : Str) : Option (Nat × Nat) :=
  match stripPre ("setpts=").toList l with
  | some r => parseDecimal (r.takeWhile (fun ch => decide (ch ≠ '*')))
  | none => none

/-- Whether a character list is `\d+\.ts`: one or more digits followed by
the literal `.ts`. -/
def digitsDotTs : Str → Bool
  | [] => false
  | ch :: cs => ch.isDigit && (decide (cs = ('.' :: 't' :: 's' :: [])) || digitsDotTs cs)

/-- Whether a whole line matches `tok` followed by `\d+\.ts`, the shape
of the first replacement regex (with `tok` the literal `segment_` on the
watch route and `timelapse_segment_` on the timelapse route). -/
def matchSeg : Str → Str → Bool
  | [], l => digitsDotTs l
  | _ :: _, [] => false
  | t :: ts, ch :: cs => decide (ch = t) && matchSeg ts cs

/-- Whether a whole line matches the second replacement regex
`[^\/\n]+` then `tok` then `\d+\.ts`: a nonempty prefix free of slash
and newline followed by a segment filename. -/
def matchPrefixedSeg (tok : Str) : Str → Bool
  | [] => false
  | ch :: cs => !(decide (ch = '/')) && !(decide (ch = '\n')) &&
      (matchSeg tok cs || matchPrefixedSeg tok cs)

/-- First replacement pass over one line (server.js lines 584, 622, 661):
a line that is exactly a bare segment filename gets the base URL
prepended. -/
def pass1 (url tok l : Str) : Str :=
  if matchSeg tok l then url ++ l else l

/-- Second replacement pass over one line (server.js lines 586, 624, 663):
a line that is a slash-free nonempty prefix followed by a segment
filename gets the base URL prepended. -/
def pass2 (url tok l : Str) : Str :=
  if matchPrefixedSeg tok l then url ++ l else l

/-- Rewrite of one manifest line: the two global regex replacements are
applied in sequence to the playlist text, which acts line-wise. -/
def rewriteLine (url tok l : Str) : Str :=
  pass2 url tok (pass1 url tok l)

/-- Rewrite of a whole manifest, as the list of its lines. -/
def rewriteManifest (url tok : Str) (lines : List Str) : List Str :=
  lines.map (rewriteLine url tok)

/-- Token of the watch-route segment regexes (server.js lines 584-586). -/
def watchSegToken : Str := ("segment_").toList

/-- Token of the timelapse-route segment regexes (server.js lines 622-624). -/
def timelapseSegToken : Str := ("timelapse_segment_").toList

/-- Space-trimming of a header value, modelling `String.trim`. -/
def trimStr (l : Str) : Str :=
  ((l.dropWhile (fun ch => decide (ch = ' '))).reverse.dropWhile
    (fun ch => decide (ch = ' '))).reverse

/-- Embedding of `getProtocol` (server.js lines 546-554): the first
comma-separated value of `x-forwarded-proto` when present, else `https`
when the connection is secure, else the request protocol. -/
def getProtocol (forwarded : Option Str) (secure : Bool) (reqProto : Str) : Str :=
  match forwarded with
  | some fp => trimStr (fp.takeWhile (fun ch => decide (ch ≠ ',')))
  | none => if secure then ("https").toList else reqProto

/-- The base URL prepended to segment lines (server.js lines 582, 620, 659):
`protocol ++ "://" ++ host ++ "/recordings/" ++ key ++ "/"`. -/
def baseUrl (protocol host key : Str) : Str :=
  protocol ++ ("://").toList ++ host ++ ("/recordings/").toList ++ key ++ ['/']

/-- The supervisor never restarts the encoder more than once: a retry
trace starting anywhere performs no restart once the retry process is
the current one. -/
theorem countRestarts_runningRetry (es : List SupEvent) :
    countRestarts SupState.runningRetry es = 0 := by
  induction es with
  | nil => rfl
  | cons e es ih =>
    cases e with
    | errEvt r => simpa [countRestarts, supStep, isRestart] using ih
    | elapseEvt r => simpa [countRestarts, supStep, isRestart] using ih
    | retryErrEvt =>
      have hdead : ∀ fs : List SupEvent, countRestarts SupState.dead fs = 0 := by
        intro fs
        induction fs with
        | nil => rfl
        | cons f fs ihf =>
          cases f <;> simpa [countRestarts, supStep, isRestart] using ihf
      simp [countRestarts, supStep, isRestart, hdead]

/-- From any supervisor state, any trace of events performs at most one
restart. -/
theorem countRestarts_le_one (es : List SupEvent) :
    ∀ s : SupState, countRestarts s es ≤ 1 := by
  induction es with
  | nil => intro s; simp [countRestarts]
  | cons e es ih =>
    intro s
    by_cases h : supStep s e = SupState.runningRetry
    · have h0 : countRestarts (supStep s e) es = 0 := by
        rw [h]; exact countRestarts_runningRetry es
      simp only [countRestarts, h0, Nat.add_zero]
      split <;> simp
    · have hr : isRestart s e = false := by
        simp [isRestart, h]
      simpa [countRestarts, hr] using ih (supStep s e)

/-- C6: a live-path encoder error while the session is registered leads
to exactly one restart after the fixed backoff, provided the session is
still registered when the backoff elapses; if it has been removed by
then, no restart occurs; a failure of the restarted process is terminal,
and no trace of supervisor events ever performs more than one restart. -/
theorem encoder_restart_once :
    (∀ es : List SupEvent, countRestarts SupState.running es ≤ 1)
    ∧ supStep SupState.running (SupEvent.errEvt true) = SupState.waitingBackoff
    ∧ supStep SupState.running (SupEvent.errEvt false) = SupState.dead
    ∧ supStep SupState.waitingBackoff (SupEvent.elapseEvt true) = SupState.runningRetry
    ∧ supStep SupState.waitingBackoff (SupEvent.elapseEvt false) = SupState.dead
    ∧ supStep SupState.runningRetry SupEvent.retryErrEvt = SupState.dead
    ∧ countRestarts SupState.running [SupEvent.errEvt true, SupEvent.elapseEvt true] = 1
    ∧ (∀ e : SupEvent, supStep SupState.dead e = SupState.dead) :=
  ⟨fun es => countRestarts_le_one es SupState.running, rfl, rfl, rfl, rfl, rfl,
   by decide, fun e => by cases e <;> rfl⟩

/-- C7: the first live encoder command and the timelapse command attach
an error handler at the supervision boundary, but the restarted live
encoder command is built with no error handler at all, so an error event
of the retry process is not caught. -/
theorem encoder_retry_unhandled_error :
    ∀ inputFile outputPlaylist segFile : String,
      (liveCommand inputFile outputPlaylist segFile).hasOnError = true
      ∧ (timelapseCommand inputFile outputPlaylist segFile).hasOnError = true
      ∧ (retryCommand inputFile outputPlaylist segFile).hasOnError = false :=
  fun _ _ _ => ⟨rfl, rfl, rfl⟩

/-- C1: the timelapse command compresses video presentation timestamps
by the factor 0.01667 (approximately 1/60, but not exactly 1/60), while
the product of its chained atempo factors is 30, not 60: the audio is
accelerated by half the video's target factor, contradicting both the
source comment claiming the product is 60.0 and the uniform 60x claim. -/
theorem timelapse_speed_factors :
    ∀ inputFile timelapsePlaylist segFile : String,
      (timelapseCommand inputFile timelapsePlaylist segFile).videoFilters = [setptsFilter]
      ∧ (timelapseCommand inputFile timelapsePlaylist segFile).audioFilters = [atempoFilter]
      ∧ parseSetptsFactor (setptsFilter.toList) = some (1667, 100000)
      ∧ parseAtempoChain (atempoFilter.toList)
          = some [(20, 10), (20, 10), (20, 10), (20, 10), (1875, 1000)]
      ∧ (([(20, 10), (20, 10), (20, 10), (20, 10), (1875, 1000)]).map ratOfPair).prod = 30
      ∧ ratOfPair (1667, 100000) = (1667 : ℚ) / 100000
      ∧ ((30 : ℚ) ≠ 60)
      ∧ ((ratOfPair (1667, 100000))⁻¹ ≠ 30)
      ∧ (ratOfPair (1667, 100000) ≠ 1 / 60) :=
  fun _ _ _ => ⟨rfl, rfl, by decide, by decide,
    by norm_num [ratOfPair], by norm_num [ratOfPair],
    by norm_num, by norm_num [ratOfPair], by norm_num [ratOfPair]⟩

/-- C2 counterexample: with the source artifact present (mtime 5) and a
stale cached playlist present (mtime 3 < 5), the `/timelapse` route
serves the cached playlist unchanged and performs no recomputation (the
job table is untouched), because the route consults only the existence
of `timelapse.m3u8` and never reaches the staleness comparison inside
`generateTimelapse`. -/
theorem timelapse_stale_cache_cex :
    routeTimelapse ⟨true, 5, true, 3, false⟩
      = (TLDisposition.servedCached, ⟨true, 5, true, 3, false⟩)
    ∧ (⟨true, 5, true, 3, false⟩ : TLState).tlMtime
        < (⟨true, 5, true, 3, false⟩ : TLState).inputMtime
    ∧ (routeTimelapse ⟨true, 5, true, 3, false⟩).2.running = false := by
  decide

/-- C2 as amended: whenever the source ingest artifact and the cached
output both exist, the `/timelapse` route serves the cached artifact
unchanged with no recomputation, regardless of the modification-time
comparison; a recomputation is started only when no cached output exists
(and no job is running). -/
theorem timelapse_cached_always_served :
    (∀ s : TLState, s.inputExists = true → s.tlExists = true →
      routeTimelapse s = (TLDisposition.servedCached, s))
    ∧ (∀ s : TLState, s.inputExists = true → s.tlExists = false → s.running = false →
      routeTimelapse s = (TLDisposition.started, { s with running := true })) := by
  constructor
  · intro s h1 h2
    rcases s with ⟨ie, im, te, tm, r⟩
    simp only at h1 h2
    subst h1; subst h2
    rfl
  · intro s h1 h2 h3
    rcases s with ⟨ie, im, te, tm, r⟩
    simp only at h1 h2 h3
    subst h1; subst h2; subst h3
    rfl

/-- C2 witness: the amended statement applied to the stale concrete
state of the counterexample and to a fresh one. -/
theorem timelapse_cached_always_served_witness :
    routeTimelapse ⟨true, 3, true, 7, false⟩
      = (TLDisposition.servedCached, ⟨true, 3, true, 7, false⟩)
    ∧ routeTimelapse ⟨true, 7, false, 0, false⟩
      = (TLDisposition.started, ⟨true, 7, false, 0, true⟩) :=
  ⟨timelapse_cached_always_served.1 ⟨true, 3, true, 7, false⟩ rfl rfl,
   timelapse_cached_always_served.2 ⟨true, 7, false, 0, false⟩ rfl rfl rfl⟩

/-- C3: while a timelapse job for the key is running, a request never
starts a second computation and leaves the whole job/filesystem state
unchanged (the request is answered immediately, never queued); when the
source exists and no cached output exists yet — the situation in which
a job can be running, since jobs are only started in the absence of the
cached playlist — the request observes the in-progress disposition,
whose HTTP surface is 202; and the running marker is cleared by both the
completion and the failure callback. -/
theorem timelapse_single_flight :
    (∀ s : TLState, s.running = true →
      (routeTimelapse s).2 = s ∧ (routeTimelapse s).1 ≠ TLDisposition.started)
    ∧ (∀ s : TLState, s.running = true → s.inputExists = true → s.tlExists = false →
      (routeTimelapse s).1 = TLDisposition.inProgress)
    ∧ httpStatus TLDisposition.inProgress = some 202
    ∧ (∀ (s : TLState) (now : Nat), (tlOnEnd now s).running = false)
    ∧ (∀ s : TLState, (tlOnError s).running = false) := by
  refine ⟨?_, ?_, rfl, fun s now => rfl, fun s => rfl⟩
  · intro s h
    rcases s with ⟨ie, im, te, tm, r⟩
    simp only at h
    subst h
    cases ie <;> cases te <;> simp [routeTimelapse, generateTimelapse, inProgressMsg]
  · intro s h1 h2 h3
    rcases s with ⟨ie, im, te, tm, r⟩
    simp only at h1 h2 h3
    subst h1; subst h2; subst h3
    rfl

/-- C3 witness: the single-flight statement applied to a concrete state
with a running job, source present and no cached output. -/
theorem timelapse_single_flight_witness :
    ((routeTimelapse ⟨true, 5, false, 0, true⟩).2 = ⟨true, 5, false, 0, true⟩
      ∧ (routeTimelapse ⟨true, 5, false, 0, true⟩).1 ≠ TLDisposition.started)
    ∧ (routeTimelapse ⟨true, 5, false, 0, true⟩).1 = TLDisposition.inProgress
    ∧ (tlOnEnd 9 ⟨true, 5, false, 0, true⟩).running = false
    ∧ (tlOnError ⟨true, 5, false, 0, true⟩).running = false :=
  ⟨timelapse_single_flight.1 ⟨true, 5, false, 0, true⟩ rfl,
   timelapse_single_flight.2.1 ⟨true, 5, false, 0, true⟩ rfl rfl rfl,
   timelapse_single_flight.2.2.2.1 ⟨true, 5, false, 0, true⟩ 9,
   timelapse_single_flight.2.2.2.2 ⟨true, 5, false, 0, true⟩⟩

/-- Looking up a key immediately after setting it yields the set value. -/
theorem lookupA_setA_self {α : Type} (m : List (Str × α)) (k : Str) (v : α) :
    lookupA (setA m k v) k = some v := by
  induction m with
  | nil => simp [setA, lookupA]
  | cons p m ih =>
    obtain ⟨k1, w⟩ := p
    by_cases h : k1 = k
    · simp [setA, lookupA, h]
    · simp [setA, lookupA, h, ih]

/-- Deleting an absent key from an association list is a no-op. -/
theorem deleteA_absent {α : Type} (m : List (Str × α)) (k : Str) :
    lookupA m k = none → deleteA m k = m := by
  induction m with
  | nil => intro _; rfl
  | cons p m ih =>
    obtain ⟨k1, w⟩ := p
    intro h
    by_cases hk : k1 = k
    · simp [lookupA, hk] at h
    · simp [lookupA, hk] at h
      simp [deleteA, hk, ih h]

/-- The length of a concatenation is the sum of the chunk lengths. -/
theorem join_length (cs : List Bytes) :
    cs.flatten.length = (cs.map List.length).sum := by
  induction cs with
  | nil => rfl
  | cons b cs ih => simp [List.flatten, ih]

/-- Stepping the chunk-delivery fold: for a state whose registry holds a
session with its write stream for the key and whose filesystem holds the
container file with contents `f`, delivering a chunk sequence leaves the
registry and process table unchanged and appends the concatenation of
the chunks to the file. -/
theorem deliver_step_spec (u c : Str) (cs : List Bytes) :
    ∀ (s : SrvState) (info : StreamInfo) (f : Bytes),
      lookupA s.activeStreams (getStreamKey u c) = some info →
      info.hasWriteStream = true →
      lookupA s.files (getStreamKey u c) = some f →
      (deliverChunks u c cs s).activeStreams = s.activeStreams
      ∧ (deliverChunks u c cs s).ffmpegProcs = s.ffmpegProcs
      ∧ lookupA (deliverChunks u c cs s).files (getStreamKey u c) = some (f ++ cs.flatten) := by
  induction cs with
  | nil =>
    intro s info f h1 h2 h3
    exact ⟨rfl, rfl, by simpa [deliverChunks] using h3⟩
  | cons b cs ih =>
    intro s info f h1 h2 h3
    have hstep : (streamChunk u c b s).1
        = { s with files := setA s.files (getStreamKey u c) (f ++ b) } := by
      simp [streamChunk, h1, h2, appendFile, h3]
    have hfold : deliverChunks u c (b :: cs) s
        = deliverChunks u c cs ((streamChunk u c b s).1) := rfl
    have h1' : lookupA ((streamChunk u c b s).1).activeStreams (getStreamKey u c)
        = some info := by rw [hstep]; exact h1
    have h3' : lookupA ((streamChunk u c b s).1).files (getStreamKey u c)
        = some (f ++ b) := by
      rw [hstep]
      exact lookupA_setA_self s.files (getStreamKey u c) (f ++ b)
    obtain ⟨a1, a2, a3⟩ := ih ((streamChunk u c b s).1) info (f ++ b) h1' h2 h3'
    refine ⟨?_, ?_, ?_⟩
    · rw [hfold, a1, hstep]
    · rw [hfold, a2, hstep]
    · rw [hfold, a3]
      simp [List.flatten]

/-- C4: starting a session and then delivering any sequence of decoded
chunk buffers before the stop signal produces a container file whose
bytes are exactly the concatenation of the chunks in arrival order,
whose length is the sum of the chunk lengths, and which is only ever
extended: delivering further chunks appends after the existing bytes,
never truncating or rewriting them. -/
theorem ingest_concat_spec :
    ∀ (u c : Str) (sockId now : Nat) (s : SrvState) (cs cs2 : List Bytes),
      lookupA (deliverChunks u c cs ((startStream u c sockId now s).1)).files
          (getStreamKey u c) = some cs.flatten
      ∧ cs.flatten.length = (cs.map List.length).sum
      ∧ lookupA (deliverChunks u c cs2
            (deliverChunks u c cs ((startStream u c sockId now s).1))).files
          (getStreamKey u c) = some (cs.flatten ++ cs2.flatten) := by
  intro u c sockId now s cs cs2
  have h1 : lookupA ((startStream u c sockId now s).1).activeStreams (getStreamKey u c)
      = some ⟨sockId, u, c, now, true⟩ := by
    simp [startStream]
    exact lookupA_setA_self s.activeStreams (getStreamKey u c) _
  have h3 : lookupA ((startStream u c sockId now s).1).files (getStreamKey u c)
      = some [] := by
    simp [startStream]
    exact lookupA_setA_self s.files (getStreamKey u c) []
  obtain ⟨a1, a2, a3⟩ := deliver_step_spec u c cs ((startStream u c sockId now s).1)
    ⟨sockId, u, c, now, true⟩ [] h1 rfl h3
  have hfile : lookupA (deliverChunks u c cs ((startStream u c sockId now s).1)).files
      (getStreamKey u c) = some cs.flatten := by simpa using a3
  refine ⟨hfile, join_length cs, ?_⟩
  have h1' : lookupA (deliverChunks u c cs ((startStream u c sockId now s).1)).activeStreams
      (getStreamKey u c) = some ⟨sockId, u, c, now, true⟩ := by rw [a1]; exact h1
  obtain ⟨-, -, b3⟩ := deliver_step_spec u c cs2
    (deliverChunks u c cs ((startStream u c sockId now s).1))
    ⟨sockId, u, c, now, true⟩ cs.flatten h1' rfl hfile
  exact b3

/-- C10: a `stream-chunk` message whose key has no registered session is
silently dropped: the state (registry, process table and filesystem) is
returned unchanged and nothing is emitted to the client. -/
theorem chunk_absent_session_noop :
    ∀ (u c : Str) (buffer : Bytes) (s : SrvState),
      lookupA s.activeStreams (getStreamKey u c) = none →
      streamChunk u c buffer s = (s, []) := by
  intro u c buffer s h
  simp [streamChunk, h]

/-- C10 witness: a chunk for a never-opened key on the empty server
state is dropped with no effect. -/
theorem chunk_absent_session_noop_witness :
    streamChunk (("u1").toList) (("5").toList) [1, 2, 3] ⟨[], [], []⟩
      = (⟨[], [], []⟩, []) :=
  chunk_absent_session_noop (("u1").toList) (("5").toList) [1, 2, 3] ⟨[], [], []⟩ rfl

/-- C8 counterexample: a `stop-stream` for a key with no open session on
the empty server state leaves the state unchanged but still emits the
`stream-stopped` acknowledgement — an observable effect, refuting the
claim that no observable effect is produced. -/
theorem stop_absent_emits_ack_cex :
    stopStream (("u1").toList) (("5").toList) ⟨[], [], []⟩
      = (⟨[], [], []⟩, [Emit.streamStopped])
    ∧ ([Emit.streamStopped] : List Emit) ≠ [] := by
  decide

/-- C8 as amended: a `stop-stream` for a key with no open session and no
(orphaned) encoder process entry raises no error and leaves the session
registry, the encoder process table and the filesystem unchanged, but
the `stream-stopped` acknowledgement is still emitted unconditionally to
the requesting client. -/
theorem stop_absent_no_state_change :
    ∀ (u c : Str) (s : SrvState),
      lookupA s.activeStreams (getStreamKey u c) = none →
      (getStreamKey u c) ∉ s.ffmpegProcs →
      stopStream u c s = (s, [Emit.streamStopped]) := by
  intro u c s h1 h2
  simp [stopStream, h2, deleteA_absent _ _ h1]

/-- C8 witness: the amended statement applied to a state holding an
unrelated session under a different key. -/
theorem stop_absent_no_state_change_witness :
    stopStream (("u1").toList) (("5").toList)
        ⟨[((("other_9").toList), ⟨7, ("other").toList, ("9").toList, 0, true⟩)],
          [("other_9").toList], [((("other_9").toList), [1])]⟩
      = (⟨[((("other_9").toList), ⟨7, ("other").toList, ("9").toList, 0, true⟩)],
          [("other_9").toList], [((("other_9").toList), [1])]⟩,
         [Emit.streamStopped]) :=
  stop_absent_no_state_change (("u1").toList) (("5").toList) _ (by decide) (by decide)

/-- C9 counterexample: the stream-key derivation is not injective — the
distinct pairs ("a_1", "2") and ("a", "1_2") derive the same key, so two
distinct captures can collide on one session key. -/
theorem streamKey_collision_cex :
    getStreamKey (("a_1").toList) (("2").toList)
      = getStreamKey (("a").toList) (("1_2").toList)
    ∧ ((("a_1").toList, ("2").toList) : Str × Str) ≠ ((("a").toList, ("1_2").toList)) := by
  decide

/-- C9 as amended: the key derivation is a deterministic function of the
pair, and it is injective on pairs whose user identifiers contain no
underscore separator; with an underscore in a user identifier, distinct
pairs can collide. -/
theorem streamKey_inj_no_underscore :
    ∀ (u1 u2 c1 c2 : Str), '_' ∉ u1 → '_' ∉ u2 →
      getStreamKey u1 c1 = getStreamKey u2 c2 → u1 = u2 ∧ c1 = c2 := by
  intro u1
  induction u1 with
  | nil =>
    intro u2 c1 c2 _ h2 h
    cases u2 with
    | nil =>
      refine ⟨rfl, ?_⟩
      simpa [getStreamKey] using h
    | cons b t =>
      exfalso
      simp only [getStreamKey, List.nil_append, List.cons_append, List.cons.injEq] at h
      exact h2 (by rw [h.1]; exact List.mem_cons_self b t)
  | cons a t ih =>
    intro u2 c1 c2 h1 h2 h
    cases u2 with
    | nil =>
      exfalso
      simp only [getStreamKey, List.nil_append, List.cons_append, List.cons.injEq] at h
      exact h1 (by rw [← h.1]; exact List.mem_cons_self a t)
    | cons b t2 =>
      simp only [getStreamKey, List.cons_append, List.cons.injEq] at h
      obtain ⟨rfl, h'⟩ := h
      have h1' : '_' ∉ t := fun hm => h1 (List.mem_cons_of_mem a hm)
      have h2' : '_' ∉ t2 := fun hm => h2 (List.mem_cons_of_mem a hm)
      obtain ⟨ht, hc⟩ := ih t2 c1 c2 h1' h2' h'
      exact ⟨by rw [ht], hc⟩

/-- C9 witness: injectivity applied at concrete underscore-free user
identifiers. -/
theorem streamKey_inj_no_underscore_witness :
    ("ab").toList = ("ab").toList ∧ ("1_2").toList = ("1_2").toList :=
  streamKey_inj_no_underscore (("ab").toList) (("ab").toList)
    (("1_2").toList) (("1_2").toList) (by decide) (by decide) rfl

/-- A line matching `\d+\.ts` contains no slash. -/
theorem digitsDotTs_no_slash (l : Str) :
    digitsDotTs l = true → '/' ∉ l := by
  induction l with
  | nil => intro h; simp [digitsDotTs] at h
  | cons ch cs ih =>
    intro h hm
    simp only [digitsDotTs, Bool.and_eq_true, Bool.or_eq_true, decide_eq_true_eq] at h
    obtain ⟨hd, hrest⟩ := h
    rcases List.mem_cons.mp hm with hc | hc
    · rw [← hc] at hd
      simp [Char.isDigit] at hd
    · rcases hrest with hts | hdig
      · rw [hts] at hc
        simp at hc
      · exact ih hdig hc

/-- A line matching a slash-free token followed by `\d+\.ts` contains no
slash. -/
theorem matchSeg_no_slash (tok : Str) :
    ∀ l : Str, '/' ∉ tok → matchSeg tok l = true → '/' ∉ l := by
  induction tok with
  | nil =>
    intro l _ h
    exact digitsDotTs_no_slash l h
  | cons t ts ih =>
    intro l htok h hm
    cases l with
    | nil => simp [matchSeg] at h
    | cons ch cs =>
      simp only [matchSeg, Bool.and_eq_true, decide_eq_true_eq] at h
      obtain ⟨hch, hrest⟩ := h
      have hts : '/' ∉ ts := fun hx => htok (List.mem_cons_of_mem t hx)
      rcases List.mem_cons.mp hm with hc | hc
      · have ht : '/' = t := hc.trans hch
        exact htok (by rw [ht]; exact List.mem_cons_self t ts)
      · exact ih cs hts hrest hc

/-- A line matched by the prefixed-segment regex contains no slash
(the prefix class excludes slash and the tail has none). -/
theorem matchPrefixedSeg_no_slash (tok : Str) :
    ∀ l : Str, '/' ∉ tok → matchPrefixedSeg tok l = true → '/' ∉ l := by
  intro l
  induction l with
  | nil => intro _ h; simp [matchPrefixedSeg] at h
  | cons ch cs ih =>
    intro htok h hm
    simp only [matchPrefixedSeg, Bool.and_eq_true, Bool.or_eq_true, Bool.not_eq_eq_eq_not,
      Bool.not_true, decide_eq_false_iff_not] at h
    obtain ⟨⟨hslash, -⟩, hrest⟩ := h
    rcases List.mem_cons.mp hm with hc | hc
    · exact hslash hc.symm
    · rcases hrest with hseg | hpre
      · exact matchSeg_no_slash tok cs htok hseg hc
      · exact ih htok hpre hc

/-- A string containing a slash is never matched by the prefixed-segment
regex. -/
theorem matchPrefixedSeg_false_of_slash (tok m : Str) :
    '/' ∈ m → '/' ∉ tok → matchPrefixedSeg tok m = false := by
  intro hm htok
  cases h : matchPrefixedSeg tok m with
  | false => rfl
  | true => exact absurd hm (matchPrefixedSeg_no_slash tok m htok h)

/-- C5 counterexample: the line consisting of the protocol marker
followed directly by a segment filename begins with the directive marker
yet is rewritten by the second replacement pass, so it is not
byte-identical in the output, refuting the claim that every line
beginning with the protocol marker passes through unmodified. -/
theorem manifest_directive_rewritten_cex :
    rewriteLine (("http://h/recordings/u_1/").toList) watchSegToken
        (("#segment_0.ts").toList)
      = ("http://h/recordings/u_1/").toList ++ ("#segment_0.ts").toList
    ∧ rewriteLine (("http://h/recordings/u_1/").toList) watchSegToken
        (("#segment_0.ts").toList) ≠ ("#segment_0.ts").toList
    ∧ (("#segment_0.ts").toList).head? = some '#'
    ∧ rewriteManifest (("http://h/recordings/u_1/").toList) watchSegToken
        [("#EXTM3U").toList, ("#EXTINF:2.000000,").toList]
      = [("#EXTM3U").toList, ("#EXTINF:2.000000,").toList] := by
  refine ⟨by decide, by decide, rfl, by decide⟩

/-- C5 as amended: the rewrite is line-wise and deterministic, and on
each line acts as follows — a line that is exactly a bare segment
filename is replaced by the base URL followed by that line; a line that
is a nonempty slash-free, newline-free prefix followed by a segment
filename is likewise replaced, even when that prefix begins with the
protocol marker; every other line is byte-identical in the output.  The
hypotheses hold for every base URL and token the routes construct: the
URL contains a slash and the tokens `segment_` and `timelapse_segment_`
do not. -/
theorem manifest_rewrite_trichotomy :
    ∀ (url tok l : Str), '/' ∈ url → '/' ∉ tok →
      (matchSeg tok l = true → rewriteLine url tok l = url ++ l)
      ∧ (matchSeg tok l = false → matchPrefixedSeg tok l = true →
          rewriteLine url tok l = url ++ l)
      ∧ (matchSeg tok l = false → matchPrefixedSeg tok l = false →
          rewriteLine url tok l = l) := by
  intro url tok l hurl htok
  refine ⟨?_, ?_, ?_⟩
  · intro h
    have hslash : '/' ∈ url ++ l := List.mem_append_left l hurl
    simp [rewriteLine, pass1, pass2, h,
      matchPrefixedSeg_false_of_slash tok (url ++ l) hslash htok]
  · intro h1 h2
    simp [rewriteLine, pass1, pass2, h1, h2]
  · intro h1 h2
    simp [rewriteLine, pass1, pass2, h1, h2]

/-- C5 witness: the trichotomy applied with a concrete base URL built by
`baseUrl`/`getProtocol` to a bare segment line, a prefixed segment line
and a directive line. -/
theorem manifest_rewrite_trichotomy_witness :
    rewriteLine
        (baseUrl (getProtocol none false (("http").toList)) (("h").toList)
          (getStreamKey (("u1").toList) (("5").toList)))
        watchSegToken (("segment_003.ts").toList)
      = (baseUrl (getProtocol none false (("http").toList)) (("h").toList)
          (getStreamKey (("u1").toList) (("5").toList))) ++ ("segment_003.ts").toList
    ∧ rewriteLine
        (baseUrl (getProtocol none false (("http").toList)) (("h").toList)
          (getStreamKey (("u1").toList) (("5").toList)))
        watchSegToken (("#EXTM3U").toList)
      = ("#EXTM3U").toList :=
  ⟨(manifest_rewrite_trichotomy
      (baseUrl (getProtocol none false (("http").toList)) (("h").toList)
        (getStreamKey (("u1").toList) (("5").toList)))
      watchSegToken (("segment_003.ts").toList) (by decide) (by decide)).1 (by decide),
   (manifest_rewrite_trichotomy
      (baseUrl (getProtocol none false (("http").toList)) (("h").toList)
        (getStreamKey (("u1").toList) (("5").toList)))
      watchSegToken (("#EXTM3U").toList) (by decide) (by decide)).2.2
      (by decide) (by decide)⟩
